import Mathlib

/-!
Verification of the AI validation system's verifiable-inference pipeline:
a shallow embedding of the persistence layer (`database/docker-entrypoint-initdb.d/init.sql`)
and of the middleware components described by the specification (Sampling Gate,
Outcome Ledger, Witness Builder / Prover / Verifier, Pipeline Orchestrator),
together with proofs of the stated properties.
-/

namespace AIValidation

/-! ## Users table (init.sql, lines 9-18)

`CREATE TABLE users` with the columns relevant to the proof pipeline.
The authentication columns (`username`, `email`, `password_hash`) play no role
in any property below and are omitted.  PostgreSQL `FLOAT` is modelled by `ℚ`;
`INTEGER` by `Int`. -/
structure UserRow where
  id : Int
  proof_threshold : Int  -- DEFAULT 100
  total_proofs : Int     -- DEFAULT 0
  successful_proofs : Int  -- DEFAULT 0
  success_rate : ℚ       -- DEFAULT 0.0
deriving Repr, DecidableEq

/-- A freshly inserted row with all defaulted columns (init.sql lines 14-17). -/
def defaultUserRow (id : Int) : UserRow :=
  { id := id, proof_threshold := 100, total_proofs := 0
    successful_proofs := 0, success_rate := 0 }

/-- The trigger function `update_user_success_rate` (init.sql lines 45-53):

    IF NEW.total_proofs > 0 THEN
        NEW.success_rate := (NEW.successful_proofs::FLOAT / NEW.total_proofs) * 100;
    END IF;
    RETURN NEW;

It receives the proposed row NEW and returns it, recomputing `success_rate`
only when `total_proofs > 0`. -/
def update_user_success_rate (new : UserRow) : UserRow :=
  if new.total_proofs > 0 then
    { new with
      success_rate := ((new.successful_proofs : ℚ) / (new.total_proofs : ℚ)) * 100 }
  else new

/-- An `UPDATE users SET total_proofs = t, successful_proofs = s` on row `r`:
the trigger `trigger_update_success_rate` (init.sql lines 56-60) fires
`BEFORE UPDATE OF total_proofs, successful_proofs` on the proposed row,
whose `success_rate` is carried over from the stored row. -/
def updateCounters (r : UserRow) (t s : Int) : UserRow :=
  update_user_success_rate { r with total_proofs := t, successful_proofs := s }

/-- An `INSERT` into `users`: the trigger also fires `BEFORE INSERT`. -/
def insertUser (new : UserRow) : UserRow :=
  update_user_success_rate new

/-- Tri-state proof outcome of one request (spec §3, ProofOutcome). -/
inductive ProofOutcome where
  | notAttempted
  | succeeded
  | failed
deriving Repr, DecidableEq

/-- Modelled from the spec: the Outcome Ledger's `record(userId, outcome)`
(spec §4.7); the middleware source implementing it is not in the repository
snapshot, only its database schema and trigger are.  "For not-attempted
outcomes, no counters change. For attempted outcomes: total_proofs += 1;
if succeeded, successful_proofs += 1; success_rate recomputed" — the
recomputation happens because the counter `UPDATE` fires the
`update_user_success_rate` trigger from init.sql. -/
def record (r : UserRow) (o : ProofOutcome) : UserRow :=
  match o with
  | .notAttempted => r
  | .succeeded => updateCounters r (r.total_proofs + 1) (r.successful_proofs + 1)
  | .failed => updateCounters r (r.total_proofs + 1) r.successful_proofs

/-- A whole sequence of recorded outcomes, applied in arrival order. -/
def recordAll (r : UserRow) (os : List ProofOutcome) : UserRow :=
  os.foldl record r

/-- Modelled from the spec: `failed_proofs` is "derived = total − successful"
(spec §3); the `users` table stores no such column. -/
def failed_proofs (r : UserRow) : Int :=
  r.total_proofs - r.successful_proofs

/-- Ledger well-formedness maintained by `record`: counters are non-negative,
successes never exceed attempts, and `success_rate` is the derived value. -/
def LedgerInv (r : UserRow) : Prop :=
  0 ≤ r.successful_proofs ∧ r.successful_proofs ≤ r.total_proofs ∧
    r.success_rate =
      (if r.total_proofs = 0 then 0
       else ((r.successful_proofs : ℚ) / (r.total_proofs : ℚ)) * 100)

theorem record_succeeded (r : UserRow) (h : 0 ≤ r.total_proofs) :
    record r .succeeded =
      { r with
        total_proofs := r.total_proofs + 1
        successful_proofs := r.successful_proofs + 1
        success_rate :=
          ((r.successful_proofs + 1 : Int) : ℚ) / ((r.total_proofs + 1 : Int) : ℚ) * 100 } := by
  have ht : r.total_proofs + 1 > 0 := by omega
  simp [record, updateCounters, update_user_success_rate, ht]

theorem record_failed (r : UserRow) (h : 0 ≤ r.total_proofs) :
    record r .failed =
      { r with
        total_proofs := r.total_proofs + 1
        success_rate :=
          ((r.successful_proofs : Int) : ℚ) / ((r.total_proofs + 1 : Int) : ℚ) * 100 } := by
  have ht : r.total_proofs + 1 > 0 := by omega
  simp [record, updateCounters, update_user_success_rate, ht]

theorem record_preserves_inv (r : UserRow) (o : ProofOutcome)
    (h : LedgerInv r) : LedgerInv (record r o) := by
  obtain ⟨h0, hle, hr⟩ := h
  have htot : 0 ≤ r.total_proofs := le_trans h0 hle
  cases o with
  | notAttempted => exact ⟨h0, hle, hr⟩
  | succeeded =>
    rw [record_succeeded r htot]
    have hne : ¬ (r.total_proofs + 1 = 0) := by omega
    refine ⟨by simp; omega, by simp; omega, ?_⟩
    simp [hne]
  | failed =>
    rw [record_failed r htot]
    have hne : ¬ (r.total_proofs + 1 = 0) := by omega
    refine ⟨by simp [h0], by simp; omega, ?_⟩
    simp [hne]

theorem recordAll_preserves_inv (r : UserRow) (os : List ProofOutcome)
    (h : LedgerInv r) : LedgerInv (recordAll r os) := by
  induction os generalizing r with
  | nil => exact h
  | cons o os ih => exact ih _ (record_preserves_inv r o h)

theorem defaultUserRow_inv (id : Int) : LedgerInv (defaultUserRow id) := by
  refine ⟨le_refl 0, le_refl 0, ?_⟩
  simp [defaultUserRow]

theorem rate_bounds (r : UserRow) (h : LedgerInv r) :
    0 ≤ r.success_rate ∧ r.success_rate ≤ 100 := by
  obtain ⟨h0, hle, hr⟩ := h
  by_cases ht : r.total_proofs = 0
  · rw [hr, if_pos ht]; norm_num
  · rw [hr, if_neg ht]
    have htpos : (0 : Int) < r.total_proofs := by omega
    have htq : (0 : ℚ) < (r.total_proofs : ℚ) := by exact_mod_cast htpos
    have hs : (0 : ℚ) ≤ (r.successful_proofs : ℚ) := by exact_mod_cast h0
    have hsle : (r.successful_proofs : ℚ) ≤ (r.total_proofs : ℚ) := by exact_mod_cast hle
    constructor
    · positivity
    · have hdiv : (r.successful_proofs : ℚ) / (r.total_proofs : ℚ) ≤ 1 :=
        (div_le_one htq).mpr hsle
      calc (r.successful_proofs : ℚ) / (r.total_proofs : ℚ) * 100
          ≤ 1 * 100 := by
            exact mul_le_mul_of_nonneg_right hdiv (by norm_num)
        _ = 100 := by norm_num

/-- C2: after every sequence of recorded outcomes starting from a freshly
created user row, `successful_proofs + failed_proofs = total_proofs`,
`success_rate` equals `successful_proofs / total_proofs * 100` (and `0` when
`total_proofs = 0`), and `success_rate` lies in `[0, 100]`; the invariant is
re-established by the trigger on every counter mutation performed by
`record`. -/
theorem c2_ledger_invariant (id : Int) (os : List ProofOutcome) :
    (recordAll (defaultUserRow id) os).successful_proofs
        + failed_proofs (recordAll (defaultUserRow id) os)
      = (recordAll (defaultUserRow id) os).total_proofs ∧
    (recordAll (defaultUserRow id) os).success_rate =
      (if (recordAll (defaultUserRow id) os).total_proofs = 0 then 0
       else ((recordAll (defaultUserRow id) os).successful_proofs : ℚ)
              / ((recordAll (defaultUserRow id) os).total_proofs : ℚ) * 100) ∧
    0 ≤ (recordAll (defaultUserRow id) os).success_rate ∧
    (recordAll (defaultUserRow id) os).success_rate ≤ 100 := by
  have hinv : LedgerInv (recordAll (defaultUserRow id) os) :=
    recordAll_preserves_inv _ os (defaultUserRow_inv id)
  obtain ⟨hb1, hb2⟩ := rate_bounds _ hinv
  obtain ⟨_, _, hr⟩ := hinv
  refine ⟨?_, hr, hb1, hb2⟩
  simp [failed_proofs]

/-- C3: `record` leaves all counters unchanged on a not-attempted outcome;
on an attempted outcome it increments `total_proofs` by 1, increments
`successful_proofs` by 1 exactly when the outcome succeeded, and recomputes
`success_rate` from the new counters, all in one step per user. -/
theorem c3_record_behavior (r : UserRow) (h : 0 ≤ r.total_proofs) :
    record r .notAttempted = r ∧
    (record r .succeeded).total_proofs = r.total_proofs + 1 ∧
    (record r .succeeded).successful_proofs = r.successful_proofs + 1 ∧
    (record r .succeeded).success_rate =
      ((r.successful_proofs + 1 : Int) : ℚ) / ((r.total_proofs + 1 : Int) : ℚ) * 100 ∧
    (record r .failed).total_proofs = r.total_proofs + 1 ∧
    (record r .failed).successful_proofs = r.successful_proofs ∧
    (record r .failed).success_rate =
      ((r.successful_proofs : Int) : ℚ) / ((r.total_proofs + 1 : Int) : ℚ) * 100 ∧
    (record r .succeeded).proof_threshold = r.proof_threshold ∧
    (record r .failed).proof_threshold = r.proof_threshold := by
  rw [record_succeeded r h, record_failed r h]
  refine ⟨rfl, ?_⟩
  simp

/-- Witness for C3 at a concrete freshly created row. -/
theorem c3_record_behavior_witness :
    record (defaultUserRow 1) .notAttempted = defaultUserRow 1 ∧
    (record (defaultUserRow 1) .succeeded).total_proofs = 1 :=
  ⟨(c3_record_behavior (defaultUserRow 1) (by norm_num [defaultUserRow])).1,
   (c3_record_behavior (defaultUserRow 1) (by norm_num [defaultUserRow])).2.1⟩

/-- C8: the trigger recomputes `success_rate` only when the new
`total_proofs` is strictly positive — an update of the counters that leaves
`total_proofs = 0` keeps the previous `success_rate`, and a freshly inserted
row keeps the column default `0.0`. -/
theorem c8_zero_total_keeps_rate (r : UserRow) (s id : Int) :
    (updateCounters r 0 s).success_rate = r.success_rate ∧
    (insertUser (defaultUserRow id)).success_rate = 0 := by
  constructor
  · simp [updateCounters, update_user_success_rate]
  · simp [insertUser, update_user_success_rate, defaultUserRow]

/-! ## Sampling Gate (spec §4.5) -/

/-- Modelled from the spec: the per-user `SamplingCounter`, "monotonically
increasing count of eligible requests since the user's account was created"
(spec §3); the middleware source holding it is not in the repository
snapshot. -/
structure GateState where
  counter : Nat
deriving Repr, DecidableEq

/-- Modelled from the spec: `shouldProve(userId) -> bool`, "consulting and
atomically advancing that user's SamplingCounter", firing "on every Nth
eligible request where N = the user's proof_threshold" (spec §4.5). -/
def shouldProve (threshold : Nat) (s : GateState) : Bool × GateState :=
  (decide ((s.counter + 1) % threshold = 0), ⟨s.counter + 1⟩)

/-- The gate decisions for the next `m` eligible requests from state `s`. -/
def runGateAux (threshold : Nat) (s : GateState) : Nat → List Bool
  | 0 => []
  | m + 1 =>
    (shouldProve threshold s).1 :: runGateAux threshold (shouldProve threshold s).2 m

/-- The gate decisions for the first `M` eligible requests of a fresh
account (counter starts at 0). -/
def runGate (threshold M : Nat) : List Bool :=
  runGateAux threshold ⟨0⟩ M

theorem runGateAux_length (N : Nat) (c m : Nat) :
    (runGateAux N ⟨c⟩ m).length = m := by
  induction m generalizing c with
  | zero => rfl
  | succ m ih => simpa [runGateAux, shouldProve] using ih (c + 1)

theorem runGateAux_count (N : Nat) (c m : Nat) :
    (runGateAux N ⟨c⟩ m).count true + c / N = (c + m) / N := by
  induction m generalizing c with
  | zero => simp [runGateAux]
  | succ m ih =>
    have hstep : runGateAux N ⟨c⟩ (m + 1) =
        decide ((c + 1) % N = 0) :: runGateAux N ⟨c + 1⟩ m := by
      simp [runGateAux, shouldProve]
    rw [hstep]
    have hsucc : (c + 1) / N = c / N + if N ∣ c + 1 then 1 else 0 :=
      Nat.succ_div c N
    have hdvd : (c + 1) % N = 0 ↔ N ∣ c + 1 :=
      Nat.dvd_iff_mod_eq_zero.symm
    have ih' := ih (c + 1)
    have harr : c + (m + 1) = (c + 1) + m := by omega
    by_cases hc : N ∣ c + 1
    · have hmod : (c + 1) % N = 0 := hdvd.mpr hc
      rw [harr, ← ih']
      simp only [List.count_cons, hmod, decide_True]
      rw [hsucc, if_pos hc]
      simp
      omega
    · have hmod : ¬ ((c + 1) % N = 0) := fun h => hc (hdvd.mp h)
      rw [harr, ← ih']
      simp only [List.count_cons, hmod, decide_False]
      rw [hsucc, if_neg hc]
      simp

theorem runGateAux_getD (N : Nat) (c m i : Nat) (hi : i < m) :
    (runGateAux N ⟨c⟩ m).getD i false = decide ((c + i + 1) % N = 0) := by
  induction m generalizing c i with
  | zero => omega
  | succ m ih =>
    have hstep : runGateAux N ⟨c⟩ (m + 1) =
        decide ((c + 1) % N = 0) :: runGateAux N ⟨c + 1⟩ m := by
      simp [runGateAux, shouldProve]
    rw [hstep]
    cases i with
    | zero => rfl
    | succ i =>
      have := ih (c + 1) i (by omega)
      simpa [Nat.add_assoc, Nat.add_comm, Nat.add_left_comm] using this

/-- C1: for every threshold `N ≥ 1`, over the first `M` eligible requests of
one user the Sampling Gate fires exactly `⌊M / N⌋` times, precisely on the
requests numbered `N, 2N, 3N, …` since account creation (request `i + 1`
fires iff `N` divides `i + 1`). -/
theorem c1_sampling_gate (N M : Nat) (h : 1 ≤ N) :
    (runGate N M).count true = M / N ∧
    ∀ i : Nat, i < M → ((runGate N M).getD i false = true ↔ N ∣ i + 1) := by
  constructor
  · have := runGateAux_count N 0 M
    simpa [runGate] using this
  · intro i hi
    rw [runGate, runGateAux_getD N 0 M i hi]
    simp only [Nat.zero_add, decide_eq_true_eq]
    exact Nat.dvd_iff_mod_eq_zero.symm

/-- Witness for C1: threshold 2, five requests — the gate fires `⌊5/2⌋ = 2`
times and request 2 is proved. -/
theorem c1_sampling_gate_witness :
    (runGate 2 5).count true = 5 / 2 ∧
    ((runGate 2 5).getD 1 false = true ↔ 2 ∣ 1 + 1) :=
  ⟨(c1_sampling_gate 2 5 (by norm_num)).1,
   (c1_sampling_gate 2 5 (by norm_num)).2 1 (by norm_num)⟩

/-! ## Circuit Compiler, Witness Builder, Prover, Verifier (spec §4.1-§4.4) -/

/-- Modelled from the spec: the arithmetic-circuit description of a compiled
model (spec §2, §4.1); the ezkl-backed middleware source is not in the
repository snapshot.  The circuit is abstracted to the input→output relation
its equations constrain (field elements abstracted to `Nat`), tagged with the
`ModelIdentity` it was compiled from. -/
structure Circuit where
  modelId : Nat
  eval : Nat → Nat

structure ProvingKey where
  modelId : Nat
deriving DecidableEq, Repr

structure VerificationKey where
  modelId : Nat
deriving DecidableEq, Repr

/-- CircuitArtifact (spec §3): circuit description plus the matching
(proving key, verification key) pair. -/
structure CircuitArtifact where
  circuit : Circuit
  pk : ProvingKey
  vk : VerificationKey

/-- Modelled from the spec: `compile(modelIdentity) -> CircuitArtifact`
(spec §4.1), emitting a key pair bound to the compiled model identity. -/
def compile (modelId : Nat) (eval : Nat → Nat) : CircuitArtifact :=
  ⟨⟨modelId, eval⟩, ⟨modelId⟩, ⟨modelId⟩⟩

inductive WitnessError where
  | unsatisfied
deriving DecidableEq, Repr

/-- A witness for one (input, output) pair; the assignment to the internal
wires is determined by the circuit and is abstracted away. -/
structure Witness where
  input : Nat
  output : Nat
deriving DecidableEq, Repr

/-- Modelled from the spec: `build(circuit, input, output) -> Witness`,
"fails with WitnessError if the given input/output pair does not satisfy the
circuit's equations" (spec §4.2). -/
def build (c : Circuit) (input output : Nat) : Except WitnessError Witness :=
  if c.eval input = output then Except.ok ⟨input, output⟩
  else Except.error WitnessError.unsatisfied

/-- The public input/output values a proof commits to (spec §3). -/
structure PublicIo where
  input : Nat
  output : Nat
deriving DecidableEq, Repr

/-- Modelled from the spec: a Proof is an "opaque byte blob plus the public
input/output values it commits to" (spec §3).  `instances` are the claimed
public values carried in the encoding; `bound` are the values the blob
cryptographically binds; `modelId` identifies the key pair it was produced
under; `sound` records whether it came from a satisfying witness;
`wellFormed` whether the encoding parses at all. -/
structure Proof where
  instances : PublicIo
  bound : PublicIo
  modelId : Nat
  sound : Bool
  wellFormed : Bool
deriving DecidableEq, Repr

/-- Modelled from the spec: `prove(circuit, witness, provingKey) -> Proof`
(spec §4.3); the resource-exhaustion failure mode is environmental and not
modelled. -/
def prove (c : Circuit) (w : Witness) (pk : ProvingKey) : Proof :=
  { instances := ⟨w.input, w.output⟩
    bound := ⟨w.input, w.output⟩
    modelId := pk.modelId
    sound := decide (c.eval w.input = w.output)
    wellFormed := true }

inductive VerifierError where
  | malformedEncoding
deriving DecidableEq, Repr

/-- Modelled from the spec: `verify(proof, publicInputsOutputs,
verificationKey) -> bool`, "never throws for a well-formed-but-invalid proof
— returns false; throws/fails with VerifierError only for structurally
malformed proof encodings" (spec §4.4).  A proof validates iff it is sound,
binds exactly the claimed and supplied public values, and matches the
verification key's identity. -/
def verify (p : Proof) (io : PublicIo) (vk : VerificationKey) :
    Except VerifierError Bool :=
  if p.wellFormed then
    Except.ok (p.sound && decide (p.bound = io) && decide (p.instances = io)
      && decide (p.modelId = vk.modelId))
  else Except.error VerifierError.malformedEncoding

/-- Tampering: overwrite the claimed public output carried in a proof's
encoding, leaving the cryptographically bound values untouched. -/
def mutateClaimedOutput (p : Proof) (o : Nat) : Proof :=
  { p with instances := ⟨p.instances.input, o⟩ }

/-- C4: for every valid (circuit, input, output) triple — one whose witness
build succeeds — proving and then verifying with the matching key pair from
`compile` returns true. -/
theorem c4_round_trip (modelId : Nat) (f : Nat → Nat) (input output : Nat)
    (w : Witness)
    (h : build (compile modelId f).circuit input output = Except.ok w) :
    verify (prove (compile modelId f).circuit w (compile modelId f).pk)
      ⟨input, output⟩ (compile modelId f).vk = Except.ok true := by
  by_cases hf : f input = output
  · have hw : w = ⟨input, output⟩ := by
      simp [build, compile, hf] at h
      exact h.symm
    subst hw
    simp [verify, prove, compile, hf]
  · simp [build, compile, hf] at h

/-- Witness for C4: the circuit `n ↦ n + 1` on input 2, output 3. -/
theorem c4_round_trip_witness :
    verify (prove (compile 0 (fun n => n + 1)).circuit ⟨2, 3⟩
        (compile 0 (fun n => n + 1)).pk)
      ⟨2, 3⟩ (compile 0 (fun n => n + 1)).vk = Except.ok true :=
  c4_round_trip 0 (fun n => n + 1) 2 3 ⟨2, 3⟩ (by simp [build, compile])

/-- C5: `verify` returns a boolean (never an exception) on every well-formed
proof, in particular it returns false — not an error — on a well-formed
unsound proof; it fails with `VerifierError` exactly when the encoding is
malformed; and mutating the claimed public output of a proof (whose encoding
carries the values it binds, as every proof `prove` emits does) makes
`verify` return false without an exception. -/
theorem c5_verify_error_behavior (p : Proof) (io : PublicIo)
    (vk : VerificationKey) :
    (p.wellFormed = true → ∃ b, verify p io vk = Except.ok b) ∧
    ((∃ e, verify p io vk = Except.error e) ↔ p.wellFormed = false) ∧
    (p.wellFormed = true → p.sound = false → verify p io vk = Except.ok false) ∧
    (∀ o : Nat, p.wellFormed = true → p.bound.output = p.instances.output →
      o ≠ p.instances.output →
      verify (mutateClaimedOutput p o) ⟨p.instances.input, o⟩ vk
        = Except.ok false) := by
  refine ⟨?_, ?_, ?_, ?_⟩
  · intro hwf
    exact ⟨p.sound && decide (p.bound = io) && decide (p.instances = io)
      && decide (p.modelId = vk.modelId), by simp [verify, hwf]⟩
  · constructor
    · rintro ⟨e, he⟩
      by_cases hwf : p.wellFormed <;> simp [verify, hwf] at he ⊢
    · intro hwf
      exact ⟨VerifierError.malformedEncoding, by simp [verify, hwf]⟩
  · intro hwf hs
    simp [verify, hwf, hs]
  · intro o hwf hbo hne
    have hb : ¬ (p.bound = (⟨p.instances.input, o⟩ : PublicIo)) := by
      intro he
      exact hne (by rw [← hbo, he])
    simp [verify, mutateClaimedOutput, hwf, hb]

/-- Witness for C5: a concrete sound proof whose claimed output is tampered
from 3 to 7 — verification returns false, no exception. -/
theorem c5_verify_error_behavior_witness :
    verify (mutateClaimedOutput ⟨⟨2, 3⟩, ⟨2, 3⟩, 0, true, true⟩ 7)
      ⟨2, 7⟩ ⟨0⟩ = Except.ok false :=
  (c5_verify_error_behavior ⟨⟨2, 3⟩, ⟨2, 3⟩, 0, true, true⟩ ⟨2, 3⟩ ⟨0⟩).2.2.2
    7 rfl rfl (by decide)

/-! ## Pipeline Orchestrator (spec §4.6) -/

/-- InferenceResult (spec §3), abstracted to the (quantized) input it
classified and the output the model produced. -/
structure InferenceResult where
  input : Nat
  output : Nat
deriving DecidableEq, Repr

/-- Failures of the proof stages preceding verification (spec §7):
compilation failure, or prover resource failure. -/
inductive StageError where
  | compilationError
  | proverError
deriving DecidableEq, Repr

inductive InferenceError where
  | inferenceFailed
deriving DecidableEq, Repr

/-- What one request returns: the classification plus the proof status,
"communicated as a secondary field" (spec §7). -/
structure RequestResult where
  result : InferenceResult
  outcome : ProofOutcome
deriving DecidableEq, Repr

/-- Modelled from the spec: the selected branch of the Pipeline Orchestrator
(spec §4.6): "ensure circuit is compiled → build witness → prove → verify.
Any failure at compile/witness/prove stage sets ProofOutcome = failed …
Verification returning false also sets ProofOutcome = failed"; the
middleware source is not in the repository snapshot. -/
def runProofPipeline (art : Except StageError CircuitArtifact)
    (res : InferenceResult) : ProofOutcome :=
  match art with
  | .error _ => .failed
  | .ok a =>
    match build a.circuit res.input res.output with
    | .error _ => .failed
    | .ok w =>
      match verify (prove a.circuit w a.pk) ⟨res.input, res.output⟩ a.vk with
      | .error _ => .failed
      | .ok true => .succeeded
      | .ok false => .failed

/-- Modelled from the spec: the Pipeline Orchestrator's per-request state
machine (spec §4.6): inference failures abort the request; otherwise the
Sampling Gate decides whether the proof pipeline runs, and its outcome is
attached to the classification result, which is always delivered. -/
def orchestrate (inference : Except InferenceError InferenceResult)
    (gateFires : Bool) (art : Except StageError CircuitArtifact) :
    Except InferenceError RequestResult :=
  match inference with
  | .error e => .error e
  | .ok res =>
    if gateFires then .ok ⟨res, runProofPipeline art res⟩
    else .ok ⟨res, .notAttempted⟩

/-- C6: when inference succeeds, the classification result is returned no
matter what the proof pipeline does, and every downstream failure — compile
error, witness build failure, or verification returning false — is recorded
as ProofOutcome.failed instead of failing the request. -/
theorem c6_failure_isolation (res : InferenceResult) (g : Bool)
    (art : Except StageError CircuitArtifact) :
    (∃ out, orchestrate (Except.ok res) g art = Except.ok ⟨res, out⟩) ∧
    (∀ e, art = Except.error e → g = true →
      orchestrate (Except.ok res) g art = Except.ok ⟨res, .failed⟩) ∧
    (∀ a, art = Except.ok a →
      build a.circuit res.input res.output = Except.error .unsatisfied →
      g = true →
      orchestrate (Except.ok res) g art = Except.ok ⟨res, .failed⟩) ∧
    (∀ a w, art = Except.ok a →
      build a.circuit res.input res.output = Except.ok w →
      verify (prove a.circuit w a.pk) ⟨res.input, res.output⟩ a.vk
        = Except.ok false →
      g = true →
      orchestrate (Except.ok res) g art = Except.ok ⟨res, .failed⟩) := by
  refine ⟨?_, ?_, ?_, ?_⟩
  · cases g <;>
      exact ⟨_, rfl⟩
  · intro e hart hg
    subst hart; subst hg
    simp [orchestrate, runProofPipeline]
  · intro a hart hb hg
    subst hart; subst hg
    simp [orchestrate, runProofPipeline, hb]
  · intro a w hart hb hv hg
    subst hart; subst hg
    simp [orchestrate, runProofPipeline, hb, hv]

/-- Witness for C6: a compilation error on a gated request still yields the
classification, with a failed proof outcome. -/
theorem c6_failure_isolation_witness :
    orchestrate (Except.ok ⟨2, 3⟩) true
        (Except.error StageError.compilationError)
      = Except.ok ⟨⟨2, 3⟩, .failed⟩ :=
  (c6_failure_isolation ⟨2, 3⟩ true
      (Except.error StageError.compilationError)).2.1
    StageError.compilationError rfl rfl

/-! ## Threshold-update surface (spec §4.5, §6; api.js updateProofSettings) -/

inductive ConfigError where
  | invalidConfiguration
deriving DecidableEq, Repr

/-- Modelled from the spec: the settings endpoint behind
`updateProofSettings(proofThreshold)` (frontend/src/services/api.js lines
71-74, which posts `/settings?proof_threshold=…` without validating); the
middleware handler is not in the repository snapshot.  "Threshold must be
≥1; a request to set it to <1 fails with InvalidConfigurationError"
(spec §4.5), "rejected before any state change" (spec §7): on error the
stored row is not replaced. -/
def updateProofSettings (u : UserRow) (t : Int) : Except ConfigError UserRow :=
  if t < 1 then Except.error ConfigError.invalidConfiguration
  else Except.ok { u with proof_threshold := t }

/-- C7: the threshold update accepts exactly the positive integers — every
value < 1 is rejected with InvalidConfigurationError and produces no updated
row (the stored row and all its counters stand unchanged), while every value
≥ 1 replaces only the threshold. -/
theorem c7_threshold_validation (u : UserRow) (t : Int) :
    (t < 1 → updateProofSettings u t = Except.error .invalidConfiguration) ∧
    (1 ≤ t → updateProofSettings u t = Except.ok { u with proof_threshold := t }) ∧
    (∀ u', updateProofSettings u t = Except.ok u' →
      u'.total_proofs = u.total_proofs ∧
      u'.successful_proofs = u.successful_proofs ∧
      u'.success_rate = u.success_rate) := by
  refine ⟨?_, ?_, ?_⟩
  · intro ht
    simp [updateProofSettings, ht]
  · intro ht
    have : ¬ t < 1 := by omega
    simp [updateProofSettings, this]
  · intro u' hu
    by_cases ht : t < 1
    · simp [updateProofSettings, ht] at hu
    · simp [updateProofSettings, ht] at hu
      subst hu
      simp

/-- Witness for C7: setting the threshold to 0 is rejected; setting it to 5
succeeds. -/
theorem c7_threshold_validation_witness :
    updateProofSettings (defaultUserRow 1) 0
        = Except.error .invalidConfiguration ∧
    updateProofSettings (defaultUserRow 1) 5
        = Except.ok { defaultUserRow 1 with proof_threshold := 5 } :=
  ⟨(c7_threshold_validation (defaultUserRow 1) 0).1 (by norm_num),
   (c7_threshold_validation (defaultUserRow 1) 5).2.1 (by norm_num)⟩

/-! ## Requests table (init.sql, lines 25-38) -/

/-- The `CREATE TABLE requests` row: `result JSONB` is modelled as an optional
string; `created_at` and the serial `id` play no role in the properties
below and are omitted. -/
structure RequestRow where
  user_id : Int
  model_type : String
  image_path : String
  result : Option String          -- JSONB, nullable
  proof_generated : Bool          -- DEFAULT FALSE
  proof_verified : Option Bool    -- nullable, no default value
deriving DecidableEq, Repr

/-- An `INSERT` supplying only `(user_id, model_type, image_path)` — as the
sample inserts in init.sql do; every remaining column takes its default:
`result` NULL, `proof_generated` FALSE, `proof_verified` NULL. -/
def insertRequest (user_id : Int) (model_type image_path : String) :
    RequestRow :=
  { user_id := user_id, model_type := model_type, image_path := image_path
    result := none, proof_generated := false, proof_verified := none }

/-- Modelled from the spec: how a finalized ProofOutcome is persisted into a
request row's `(proof_generated, proof_verified)` columns (spec §6:
`proof_generated: bool, proof_verified: bool|null`; §7: proof status is
"not attempted", "verified", or "failed"); the middleware writer is not in
the repository snapshot.  A not-attempted request keeps the column
defaults. -/
def persistOutcome (r : RequestRow) (o : ProofOutcome) : RequestRow :=
  match o with
  | .notAttempted => r
  | .succeeded => { r with proof_generated := true, proof_verified := some true }
  | .failed => { r with proof_generated := true, proof_verified := some false }

/-- C9: a newly created request row starts with `proof_generated = FALSE`
and `proof_verified = NULL`, and after the outcome is persisted the tri-state
is encoded as: not-attempted ⇔ `proof_generated = FALSE`, with
`proof_verified` NULL exactly until an attempted proof has a verification
result. -/
theorem c9_request_defaults (uid : Int) (mt ip : String) (o : ProofOutcome) :
    (insertRequest uid mt ip).proof_generated = false ∧
    (insertRequest uid mt ip).proof_verified = none ∧
    ((persistOutcome (insertRequest uid mt ip) o).proof_generated = false
      ↔ o = .notAttempted) ∧
    ((persistOutcome (insertRequest uid mt ip) o).proof_verified = none
      ↔ o = .notAttempted) := by
  refine ⟨rfl, rfl, ?_, ?_⟩ <;>
    cases o <;> simp [persistOutcome, insertRequest]

/-! ## Foreign key and cascade delete (init.sql, lines 34-37) -/

/-- The two persisted tables. -/
structure DBState where
  users : List UserRow
  requests : List RequestRow

/-- Referential integrity enforced by the `fk_user` constraint: every
request row's `user_id` references an existing user. -/
def RefIntegrity (db : DBState) : Prop :=
  ∀ r ∈ db.requests, ∃ u ∈ db.users, u.id = r.user_id

/-- A `DELETE FROM users WHERE id = uid`: by `ON DELETE CASCADE`, the same
statement removes every request row owned by that user. -/
def deleteUser (db : DBState) (uid : Int) : DBState :=
  { users := db.users.filter (fun u => u.id != uid)
    requests := db.requests.filter (fun r => r.user_id != uid) }

/-- C10: in an integral database, deleting a user removes that user and all
of the user's request rows in one step, no surviving request references the
deleted user, and referential integrity is preserved — no request outlives
its owning account. -/
theorem c10_cascade_delete (db : DBState) (uid : Int) (h : RefIntegrity db) :
    RefIntegrity (deleteUser db uid) ∧
    (∀ r ∈ (deleteUser db uid).requests, r.user_id ≠ uid) ∧
    (∀ u ∈ (deleteUser db uid).users, u.id ≠ uid) := by
  refine ⟨?_, ?_, ?_⟩
  · intro r hr
    rw [deleteUser, List.mem_filter] at hr
    obtain ⟨hmem, hne⟩ := hr
    obtain ⟨u, hu, hid⟩ := h r hmem
    refine ⟨u, ?_, hid⟩
    rw [deleteUser, List.mem_filter]
    refine ⟨hu, ?_⟩
    simpa [hid] using hne
  · intro r hr
    rw [deleteUser, List.mem_filter] at hr
    simpa using hr.2
  · intro u hu
    rw [deleteUser, List.mem_filter] at hu
    simpa using hu.2

/-- Witness for C10: a database with one user and one request owned by that
user stays integral after the user is deleted. -/
theorem c10_cascade_delete_witness :
    RefIntegrity (deleteUser
      ⟨[⟨1, 100, 0, 0, 0⟩], [⟨1, "resnet18", "img.jpg", none, false, none⟩]⟩
      1) :=
  (c10_cascade_delete
    ⟨[⟨1, 100, 0, 0, 0⟩], [⟨1, "resnet18", "img.jpg", none, false, none⟩]⟩
    1 (by intro r hr; simp at hr; subst hr; exact ⟨⟨1, 100, 0, 0, 0⟩, by simp, rfl⟩)).1

end AIValidation
